import Mathlib

/-!
Shallow embedding of the file
src/art/estimators/certification/derandomized_smoothing/pytorch.py,
which defines the class PyTorchDeRandomizedSmoothing, a thin adapter
that plugs a PyTorch classifier into the DeRandomizedSmoothingMixin.

Modelling choices.

Numeric values (numpy and torch floating point entries) are modelled as
rationals.  The external collaborators listed by the spec - the torch
model (a callable forward pass), the loss object, the optimizer, the
ablator, the base class PyTorchClassifier with its predict and fit, the
DeRandomizedSmoothingMixin predict, the label utilities, the
preprocessing pipeline, and the source of randomness behind
random.shuffle - are black boxes from the point of view of this file,
and are modelled as function fields of a Backend record.  The
exponential used by torch.nn.functional.softmax is likewise carried as
a field, since only its pointwise application matters here.

The method fit is modelled as a function returning a FitOutcome: the
resulting train or eval mode of the model, an optional error (the one
ValueError this module can raise), and the ordered trace of observable
operations the training loop performs (label transformation,
preprocessing, label reduction, per epoch shuffling, and per batch:
copying the batch, running the ablator forward transform, zeroing the
gradients, the model forward pass, forming the loss, the backward pass,
and the optimizer step).  The in-place random.shuffle of the index
array is modelled by threading the index list through the per-epoch
shuffle function of the backend.

Methods that consist of a single delegated call with no observable
result in this module (_fit_classifier, which returns
PyTorchClassifier.fit applied to the cast input) are modelled by the
record of arguments they pass to the delegate.
-/

namespace DRS

variable {α β γ κ O M L CV PD PO : Type}

/-- One row of torch.nn.functional.softmax along dim 1 (the class
dimension): entry j of a row z is e (z j) divided by the sum of e over
the row, where e is the exponential function of the numeric backend. -/
def softmaxRow (e : ℚ → ℚ) (row : List ℚ) : List ℚ :=
  row.map (fun z => e z / (row.map e).sum)

/-- The elementwise cast x.astype(ART_NUMPY_DTYPE). -/
def astype (cast : α → α) (x : List α) : List α := x.map cast

/-- The external collaborators of PyTorchDeRandomizedSmoothing, modelled
as black-box functions:
* basePredict:  PyTorchClassifier.predict (x, batch_size, training_mode, kwargs);
* mixinPredict: DeRandomizedSmoothingMixin.predict (x, batch_size, training_mode, kwargs);
* exp:          the exponential used by torch.nn.functional.softmax;
* castDtype:    the scalar cast performed by astype(ART_NUMPY_DTYPE);
* model:        the torch model forward pass on a batch, returning the
                indexable model_outputs;
* ablatorForward: self.ablator.forward;
* checkAndTransformLabels: art.utils.check_and_transform_label_format;
* applyPreprocessing: self._apply_preprocessing with fit=True;
* reduceLabels: self.reduce_labels;
* shuffleFn:    the permutation random.shuffle applies in place at a
                given epoch;
* dfltIn, dfltLbl, dfltOut: default elements used to totalise list
                indexing, never reached on in-bounds indices. -/
structure Backend (α β γ κ : Type) where
  basePredict : List α → Nat → Bool → κ → List (List ℚ)
  mixinPredict : List α → Nat → Bool → κ → List (List ℚ)
  exp : ℚ → ℚ
  castDtype : α → α
  model : List α → List γ
  ablatorForward : List α → List α
  checkAndTransformLabels : List β → List β
  applyPreprocessing : List α → List β → List α × List β
  reduceLabels : List β → List β
  shuffleFn : Nat → List Nat → List Nat
  dfltIn : α
  dfltLbl : β
  dfltOut : γ

/-- Observable operations performed by the body of fit, in program
order.  Payloads record the data each operation acts on. -/
inductive TrainEvent (α β γ : Type) where
  | labelTransform
  | preprocess
  | reduceLabels
  | shuffle (ind : List Nat)
  | copyBatch (i_batch : List α)
  | ablate (a_batch : List α)
  | zeroGrad
  | forward (outs : List γ)
  | computeLoss (lossInput : γ) (o_batch : List β)
  | backward
  | step
  deriving DecidableEq

/-- The result of a call to fit: the train or eval mode the model was
put in, the error raised (if any) and the trace of operations
performed. -/
structure FitOutcome (α β γ : Type) where
  trainMode : Bool
  error : Option String
  events : List (TrainEvent α β γ)
  deriving DecidableEq

/-- The message of the single ValueError this module raises
(pytorch.py line 135), kept verbatim. -/
def optimizerErrorMsg : String :=
  "An optimizer is needed to train the model, but none for provided."

/-- The arguments super().__init__ receives from
PyTorchDeRandomizedSmoothing.__init__, in the order of the call at
pytorch.py lines 69-84. -/
structure SuperArgs (M L O CV PD PO : Type) where
  model : M
  loss : L
  input_shape : List Nat
  nb_classes : Nat
  optimizer : Option O
  channels_first : Bool
  clip_values : Option CV
  preprocessing_defences : Option PD
  postprocessing_defences : Option PO
  preprocessing : ℚ × ℚ
  device_type : String
  ablation_type : String
  ablation_size : Nat
  threshold : ℚ

/-- PyTorchDeRandomizedSmoothing.__init__: parameters in the
constructor order of pytorch.py lines 30-46, body the single
super().__init__ call of lines 69-84. -/
def init (model : M) (loss : L) (input_shape : List Nat) (nb_classes : Nat)
    (ablation_type : String) (ablation_size : Nat) (threshold : ℚ)
    (optimizer : Option O) (channels_first : Bool) (clip_values : Option CV)
    (preprocessing_defences : Option PD) (postprocessing_defences : Option PO)
    (preprocessing : ℚ × ℚ) (device_type : String) :
    SuperArgs M L O CV PD PO :=
  { model := model
    loss := loss
    input_shape := input_shape
    nb_classes := nb_classes
    optimizer := optimizer
    channels_first := channels_first
    clip_values := clip_values
    preprocessing_defences := preprocessing_defences
    postprocessing_defences := postprocessing_defences
    preprocessing := preprocessing
    device_type := device_type
    ablation_type := ablation_type
    ablation_size := ablation_size
    threshold := threshold }

/-- PyTorchDeRandomizedSmoothing._predict_classifier (pytorch.py lines
86-90): cast x to ART_NUMPY_DTYPE, delegate to
PyTorchClassifier.predict with batch_size, training_mode and kwargs
unchanged, apply softmax along dim 1, and return the integer array of
comparisons against self.threshold (1 where the softened probability is
at least the threshold, 0 elsewhere).  threshold is the configured
self.threshold. -/
def _predict_classifier (b : Backend α β γ κ) (threshold : ℚ) (x : List α)
    (batch_size : Nat) (training_mode : Bool) (kw : κ) : List (List ℤ) :=
  let x2 := astype b.castDtype x
  let outputs := b.basePredict x2 batch_size training_mode kw
  let soft := outputs.map (softmaxRow b.exp)
  soft.map (fun row => row.map (fun p => if threshold ≤ p then 1 else 0))

/-- PyTorchDeRandomizedSmoothing.predict (pytorch.py lines 92-102):
delegate to DeRandomizedSmoothingMixin.predict with training_mode set
to False.  The python keyword arguments come last; here kw precedes
batch_size so that the default batch_size=128 can be modelled with
optParam. -/
def predict (b : Backend α β γ κ) (x : List α) (kw : κ)
    (batch_size : optParam Nat 128) : List (List ℚ) :=
  b.mixinPredict x batch_size false kw

/-- The argument tuple _fit_classifier passes to
PyTorchClassifier.fit. -/
structure BaseFitCall (α β κ : Type) where
  x : List α
  y : List β
  batch_size : Nat
  nb_epochs : Nat
  kwargs : κ

/-- PyTorchDeRandomizedSmoothing._fit_classifier (pytorch.py lines
104-106): cast x to ART_NUMPY_DTYPE and delegate to
PyTorchClassifier.fit with y, batch_size, nb_epochs and kwargs
unchanged.  The delegated black-box call is modelled by the record of
arguments it receives. -/
def _fit_classifier (b : Backend α β γ κ) (x : List α) (y : List β)
    (batch_size : Nat) (nb_epochs : Nat) (kw : κ) : BaseFitCall α β κ :=
  { x := astype b.castDtype x
    y := y
    batch_size := batch_size
    nb_epochs := nb_epochs
    kwargs := kw }

/-- num_batch = int(np.ceil(len(x_preprocessed) / float(batch_size)))
(pytorch.py line 145), written with natural-number arithmetic: for
every positive batch size, (n + bs - 1) / bs in truncating natural
division equals the ceiling of n / bs, which the lemma numBatch_eq_ceil
below proves. -/
def numBatch (n bs : Nat) : Nat := (n + bs - 1) / bs

/-- The index slice ind[m * batch_size : (m + 1) * batch_size] used for
batch m (pytorch.py lines 155 and 159). -/
def batchSlice (ind : List Nat) (bs m : Nat) : List Nat :=
  (ind.drop (m * bs)).take bs

/-- The batches of one epoch: the slices of the shuffled index list for
m = 0 .. num_batch - 1. -/
def epochBatches (ind : List Nat) (bs nB : Nat) : List (List Nat) :=
  (List.range nB).map (fun m => batchSlice ind bs m)

/-- The operations of one iteration of the inner loop of fit
(pytorch.py lines 154-180), in program order: copy the indexed batch,
apply the ablator forward transform, zero the gradients, run the model
forward pass on the ablated batch, form the loss on model_outputs[-1]
and the label batch, run the backward pass, and take one optimizer
step.  The device transfers of lines 158-159 move data unchanged and
produce no event. -/
def batchBlock (b : Backend α β γ κ) (xp : List α) (yp : List β)
    (ind : List Nat) (bs m : Nat) : List (TrainEvent α β γ) :=
  let idxs := batchSlice ind bs m
  let i_batch := idxs.map (fun i => xp.getD i b.dfltIn)
  let o_batch := idxs.map (fun i => yp.getD i b.dfltLbl)
  let a_batch := b.ablatorForward i_batch
  let outs := b.model a_batch
  [TrainEvent.copyBatch i_batch, TrainEvent.ablate a_batch,
   TrainEvent.zeroGrad, TrainEvent.forward outs,
   TrainEvent.computeLoss (outs.getLastD b.dfltOut) o_batch,
   TrainEvent.backward, TrainEvent.step]

/-- The operations of one epoch (pytorch.py lines 150-180): shuffle the
index list, then run every batch of the epoch in order. -/
def epochTrace (b : Backend α β γ κ) (xp : List α) (yp : List β)
    (ind : List Nat) (bs nB : Nat) : List (TrainEvent α β γ) :=
  TrainEvent.shuffle ind ::
    (List.range nB).flatMap (fun m => batchBlock b xp yp ind bs m)

/-- The epoch loop of fit (pytorch.py line 149): k epochs remain, e is
the current epoch number, ind the current contents of the index array;
each epoch applies the in-place random.shuffle (modelled by shuffleFn e)
and then processes its batches. -/
def epochLoop (b : Backend α β γ κ) (xp : List α) (yp : List β)
    (bs nB : Nat) : Nat → Nat → List Nat → List (TrainEvent α β γ)
  | 0, _, _ => []
  | k + 1, e, ind =>
    let ind2 := b.shuffleFn e ind
    epochTrace b xp yp ind2 bs nB ++ epochLoop b xp yp bs nB k (e + 1) ind2

/-- PyTorchDeRandomizedSmoothing.fit (pytorch.py lines 108-180).  The
model is put in the requested mode first (line 132); with no optimizer
the ValueError of line 135 is raised before anything else runs; with an
optimizer the labels are transformed, preprocessing is applied, the
labels are reduced, and the epoch loop runs on the index array
np.arange(len(x_preprocessed)).  optimizer stands for the configured
self._optimizer, kw for the (unused) kwargs; the python keyword
arguments come last, here kw precedes the defaulted parameters so that
batch_size=128, nb_epochs=10 and training_mode=True can be modelled
with optParam. -/
def fit (b : Backend α β γ κ) (optimizer : Option O) (x : List α)
    (y : List β) (kw : κ) (batch_size : optParam Nat 128)
    (nb_epochs : optParam Nat 10) (training_mode : optParam Bool true) :
    FitOutcome α β γ :=
  match optimizer with
  | none => ⟨training_mode, some optimizerErrorMsg, []⟩
  | some _ =>
    let y1 := b.checkAndTransformLabels y
    let p := b.applyPreprocessing x y1
    let xp := p.1
    let yp := b.reduceLabels p.2
    let nB := numBatch xp.length batch_size
    ⟨training_mode, none,
      TrainEvent.labelTransform :: TrainEvent.preprocess ::
        TrainEvent.reduceLabels ::
        epochLoop b xp yp batch_size nB nb_epochs 0 (List.range xp.length)⟩

/-- The contents of the index array after j further applications of the
in-place shuffle, starting from ind at epoch e. -/
def indIter (b : Backend α β γ κ) : Nat → List Nat → Nat → List Nat
  | _, ind, 0 => ind
  | e, ind, j + 1 => indIter b (e + 1) (b.shuffleFn e ind) j

/-- The contents of the index array during epoch e of fit over n
preprocessed examples: np.arange(n) shuffled e + 1 times. -/
def indSeq (b : Backend α β γ κ) (n e : Nat) : List Nat :=
  indIter b 0 (List.range n) (e + 1)

/-- Recogniser for the optimizer step event. -/
def isStep : TrainEvent α β γ → Bool
  | TrainEvent.step => true
  | _ => false

/-- A concrete backend over rational inputs, labels and outputs, used
to evaluate the embedding on concrete data. -/
def testBackend : Backend ℚ ℚ ℚ Unit :=
  { basePredict := fun _ _ _ _ => [[0, 1]]
    mixinPredict := fun _ bs _ _ => [[(bs : ℚ)]]
    exp := id
    castDtype := id
    model := fun xs => xs
    ablatorForward := id
    checkAndTransformLabels := id
    applyPreprocessing := fun x y => (x, y)
    reduceLabels := id
    shuffleFn := fun _ l => l.reverse
    dfltIn := 0
    dfltLbl := 0
    dfltOut := 0 }

/-! Helper lemmas -/

theorem getD_map {A B : Type} (f : A → B) (l : List A) (i : Nat) (hi : i < l.length)
    (d : B) (d2 : A) : (l.map f).getD i d = f (l.getD i d2) := by
  rw [List.getD_eq_getElem?_getD, List.getD_eq_getElem?_getD, List.getElem?_map,
    List.getElem?_eq_getElem hi]
  rfl

theorem le_numBatch_mul (n bs : Nat) (hbs : 0 < bs) : n ≤ numBatch n bs * bs := by
  have e := Nat.div_add_mod (n + bs - 1) bs
  have hr := Nat.mod_lt (n + bs - 1) hbs
  unfold numBatch
  rw [Nat.mul_comm]
  set p := bs * ((n + bs - 1) / bs) with hp
  set r := (n + bs - 1) % bs with hrdef
  omega

theorem mul_le_of_lt_numBatch (n bs m : Nat) (hbs : 0 < bs)
    (h : m + 1 < numBatch n bs) : (m + 1) * bs ≤ n := by
  have h2 : m + 2 ≤ (n + bs - 1) / bs := Nat.succ_le_of_lt h
  have h3 : (m + 2) * bs ≤ ((n + bs - 1) / bs) * bs := Nat.mul_le_mul_right bs h2
  have h4 : ((n + bs - 1) / bs) * bs ≤ n + bs - 1 := Nat.div_mul_le_self _ _
  have h5 : (m + 2) * bs = (m + 1) * bs + bs := by ring
  set p := (m + 1) * bs with hp
  set q := (m + 2) * bs with hq
  set s := ((n + bs - 1) / bs) * bs with hs
  omega

theorem numBatch_le_of_le_mul (n bs k : Nat) (hbs : 0 < bs) (h : n ≤ k * bs) :
    numBatch n bs ≤ k := by
  unfold numBatch
  have h1 : n + bs - 1 < (k + 1) * bs := by
    have h2 : (k + 1) * bs = k * bs + bs := by ring
    set p := k * bs with hp
    omega
  have h3 := (Nat.div_lt_iff_lt_mul hbs).mpr h1
  set d := (n + bs - 1) / bs with hd
  omega

theorem numBatch_eq_ceil (n bs : Nat) (hbs : 0 < bs) :
    numBatch n bs = ⌈(n : ℚ) / (bs : ℚ)⌉₊ := by
  have hb : (0 : ℚ) < (bs : ℚ) := by exact_mod_cast hbs
  apply le_antisymm
  · apply numBatch_le_of_le_mul n bs _ hbs
    have h1 : (n : ℚ) / (bs : ℚ) ≤ (⌈(n : ℚ) / (bs : ℚ)⌉₊ : ℚ) := Nat.le_ceil _
    have h2 : (n : ℚ) ≤ (⌈(n : ℚ) / (bs : ℚ)⌉₊ : ℚ) * (bs : ℚ) := (div_le_iff₀ hb).mp h1
    exact_mod_cast h2
  · apply Nat.ceil_le.mpr
    have h2 : (n : ℚ) ≤ (numBatch n bs : ℚ) * (bs : ℚ) := by
      exact_mod_cast le_numBatch_mul n bs hbs
    exact (div_le_iff₀ hb).mpr h2

theorem flatten_epochBatches (bs : Nat) :
    ∀ (k : Nat) (l : List Nat), l.length ≤ k * bs →
      (epochBatches l bs k).flatten = l := by
  intro k
  induction k with
  | zero =>
    intro l hl
    have hnil : l = [] := List.length_eq_zero.mp (Nat.le_zero.mp (by simpa using hl))
    simp [hnil, epochBatches]
  | succ k ih =>
    intro l hl
    have hslice : ∀ m : Nat, batchSlice l bs (m + 1) = batchSlice (l.drop bs) bs m := by
      intro m
      have hd : (l.drop bs).drop (m * bs) = l.drop ((m + 1) * bs) := by
        rw [List.drop_drop]
        congr 1
        ring
      simp [batchSlice, hd]
    rw [epochBatches, List.range_succ_eq_map, List.map_cons, List.flatten_cons,
      List.map_map]
    have h0 : batchSlice l bs 0 = l.take bs := by simp [batchSlice]
    have hmap : (List.range k).map ((fun m => batchSlice l bs m) ∘ Nat.succ)
        = (List.range k).map (fun m => batchSlice (l.drop bs) bs m) := by
      apply List.map_congr_left
      intro m _
      exact hslice m
    rw [h0, hmap]
    have hlen : (l.drop bs).length ≤ k * bs := by
      rw [List.length_drop]
      rw [Nat.succ_mul] at hl
      exact Nat.sub_le_iff_le_add.mpr hl
    rw [show (List.range k).map (fun m => batchSlice (l.drop bs) bs m)
        = epochBatches (l.drop bs) bs k from rfl]
    rw [ih (l.drop bs) hlen]
    exact List.take_append_drop bs l

theorem countP_mem_zero_of_count_flatten (i : Nat) :
    ∀ ls : List (List Nat), ls.flatten.count i = 0 →
      ls.countP (fun s => decide (i ∈ s)) = 0 := by
  intro ls
  induction ls with
  | nil => intro _; rfl
  | cons s ls ih =>
    intro h
    rw [List.flatten_cons, List.count_append] at h
    obtain ⟨h1, h2⟩ := Nat.add_eq_zero.mp h
    have hni : i ∉ s := List.count_eq_zero.mp h1
    rw [List.countP_cons, ih h2]
    simp [hni]

theorem countP_mem_of_count_flatten (i : Nat) :
    ∀ ls : List (List Nat), ls.flatten.count i = 1 →
      ls.countP (fun s => decide (i ∈ s)) = 1 := by
  intro ls
  induction ls with
  | nil => intro h; simp at h
  | cons s ls ih =>
    intro h
    rw [List.flatten_cons, List.count_append] at h
    rw [List.countP_cons]
    by_cases hm : i ∈ s
    · have hs : 0 < s.count i := List.count_pos_iff.mpr hm
      have h2 : ls.flatten.count i = 0 := by omega
      rw [countP_mem_zero_of_count_flatten i ls h2]
      simp [hm]
    · have hs : s.count i = 0 := List.count_eq_zero.mpr hm
      rw [hs, Nat.zero_add] at h
      rw [ih h]
      simp [hm]

theorem sum_map_one {A : Type} : ∀ l : List A, (l.map (fun _ => (1 : Nat))).sum = l.length := by
  intro l
  induction l with
  | nil => rfl
  | cons a l ih => simp [ih, Nat.add_comm]

theorem countP_flatMap {A B : Type} (p : B → Bool) (f : A → List B) :
    ∀ l : List A, (l.flatMap f).countP p = (l.map (fun a => (f a).countP p)).sum := by
  intro l
  induction l with
  | nil => rfl
  | cons a l ih => simp [List.flatMap_cons, List.countP_append, ih]

theorem countP_isStep_batchBlock (b : Backend α β γ κ) (xp : List α) (yp : List β)
    (ind : List Nat) (bs m : Nat) :
    (batchBlock b xp yp ind bs m).countP isStep = 1 := rfl

theorem countP_isStep_epochTrace (b : Backend α β γ κ) (xp : List α) (yp : List β)
    (ind : List Nat) (bs nB : Nat) :
    (epochTrace b xp yp ind bs nB).countP isStep = nB := by
  simp only [epochTrace, List.countP_cons, countP_flatMap]
  rw [List.map_congr_left (fun m _ => countP_isStep_batchBlock b xp yp ind bs m)]
  rw [sum_map_one, List.length_range]
  simp [isStep]

theorem indIter_perm (b : Backend α β γ κ)
    (hs : ∀ (e : Nat) (l : List Nat), (b.shuffleFn e l).Perm l) :
    ∀ (j e : Nat) (ind : List Nat), (indIter b e ind j).Perm ind := by
  intro j
  induction j with
  | zero => intro e ind; simp only [indIter]; exact List.Perm.refl ind
  | succ j ih =>
    intro e ind
    simp only [indIter]
    exact (ih (e + 1) (b.shuffleFn e ind)).trans (hs e ind)

theorem indSeq_perm (b : Backend α β γ κ)
    (hs : ∀ (e : Nat) (l : List Nat), (b.shuffleFn e l).Perm l) (n e : Nat) :
    (indSeq b n e).Perm (List.range n) :=
  indIter_perm b hs (e + 1) 0 (List.range n)

theorem epochLoop_eq (b : Backend α β γ κ) (xp : List α) (yp : List β) (bs nB : Nat) :
    ∀ (k e : Nat) (ind : List Nat),
      epochLoop b xp yp bs nB k e ind =
        (List.range k).flatMap
          (fun j => epochTrace b xp yp (indIter b e ind (j + 1)) bs nB) := by
  intro k
  induction k with
  | zero => intro e ind; simp [epochLoop]
  | succ k ih =>
    intro e ind
    simp only [epochLoop]
    rw [ih (e + 1) (b.shuffleFn e ind)]
    rw [List.range_succ_eq_map, List.flatMap_cons, List.flatMap_map]
    rfl

theorem fit_some_events (b : Backend α β γ κ) (o : O) (x : List α) (y : List β)
    (kw : κ) (bs ne : Nat) (tm : Bool) :
    (fit b (some o) x y kw bs ne tm).events =
      TrainEvent.labelTransform :: TrainEvent.preprocess :: TrainEvent.reduceLabels ::
        (List.range ne).flatMap (fun e =>
          epochTrace b (b.applyPreprocessing x (b.checkAndTransformLabels y)).1
            (b.reduceLabels (b.applyPreprocessing x (b.checkAndTransformLabels y)).2)
            (indSeq b (b.applyPreprocessing x (b.checkAndTransformLabels y)).1.length e)
            bs
            (numBatch (b.applyPreprocessing x (b.checkAndTransformLabels y)).1.length bs)) := by
  simp only [fit]
  rw [epochLoop_eq]
  rfl

theorem computeLoss_in_batchBlock (b : Backend α β γ κ) (xp : List α) (yp : List β)
    (ind : List Nat) (bs m : Nat) (l : γ) (lbls : List β) :
    TrainEvent.computeLoss l lbls ∈ batchBlock b xp yp ind bs m →
    ∃ outs, TrainEvent.forward outs ∈ batchBlock b xp yp ind bs m ∧
      l = outs.getLastD b.dfltOut := by
  intro h
  refine ⟨b.model (b.ablatorForward
    ((batchSlice ind bs m).map (fun i => xp.getD i b.dfltIn))), ?_, ?_⟩
  · simp [batchBlock]
  · simp [batchBlock] at h
    simpa using h.1

theorem computeLoss_in_epochTrace (b : Backend α β γ κ) (xp : List α) (yp : List β)
    (ind : List Nat) (bs nB : Nat) (l : γ) (lbls : List β) :
    TrainEvent.computeLoss l lbls ∈ epochTrace b xp yp ind bs nB →
    ∃ outs, TrainEvent.forward outs ∈ epochTrace b xp yp ind bs nB ∧
      l = outs.getLastD b.dfltOut := by
  intro h
  simp only [epochTrace, List.mem_cons, List.mem_flatMap, List.mem_range] at h
  rcases h with h | ⟨m, hm, hmem⟩
  · exact TrainEvent.noConfusion h
  · obtain ⟨outs, ho, hl⟩ := computeLoss_in_batchBlock b xp yp ind bs m l lbls hmem
    refine ⟨outs, ?_, hl⟩
    simp only [epochTrace, List.mem_cons, List.mem_flatMap, List.mem_range]
    exact Or.inr ⟨m, hm, ho⟩

/-! Claim theorems -/

/-- C1: for every call to fit on a PyTorchDeRandomizedSmoothing instance whose
configured optimizer is None, fit raises an error (the ValueError stating an
optimizer is needed), and no label transformation, preprocessing, shuffling,
forward pass, backward pass, or optimizer step is performed: the outcome
carries the error message and an empty operation trace. -/
theorem fit_without_optimizer_raises (b : Backend α β γ κ) (x : List α)
    (y : List β) (kw : κ) (bs ne : Nat) (tm : Bool) :
    fit b (none : Option O) x y kw bs ne tm =
      ⟨tm, some optimizerErrorMsg, []⟩ :=
  rfl

/-- C2: for every input array x, _predict_classifier returns an integer array
of the same shape as the backend classifier prediction, in which each entry is
1 if the softmax (taken over the class dimension) of the backend classifier
output for that sample and class is greater than or equal to the configured
scalar threshold, and 0 otherwise (an all-zero row representing abstention). -/
theorem predict_classifier_thresholds_softmax (b : Backend α β γ κ) (th : ℚ)
    (x : List α) (bs : Nat) (tm : Bool) (kw : κ) :
    (_predict_classifier b th x bs tm kw).length
        = (b.basePredict (astype b.castDtype x) bs tm kw).length ∧
    ∀ i : Nat, i < (b.basePredict (astype b.castDtype x) bs tm kw).length →
      ((_predict_classifier b th x bs tm kw).getD i []).length
          = ((b.basePredict (astype b.castDtype x) bs tm kw).getD i []).length ∧
      ∀ j : Nat, j < ((b.basePredict (astype b.castDtype x) bs tm kw).getD i []).length →
        ((_predict_classifier b th x bs tm kw).getD i []).getD j 0 =
          if th ≤ (softmaxRow b.exp
              ((b.basePredict (astype b.castDtype x) bs tm kw).getD i [])).getD j 0
          then 1 else 0 := by
  have key : ∀ out : List (List ℚ),
      ((out.map (softmaxRow b.exp)).map
          (fun row => row.map (fun p => if th ≤ p then (1 : ℤ) else 0))).length
        = out.length ∧
      ∀ i : Nat, i < out.length →
        (((out.map (softmaxRow b.exp)).map
            (fun row => row.map (fun p => if th ≤ p then (1 : ℤ) else 0))).getD i []).length
          = (out.getD i []).length ∧
        ∀ j : Nat, j < (out.getD i []).length →
          (((out.map (softmaxRow b.exp)).map
              (fun row => row.map (fun p => if th ≤ p then (1 : ℤ) else 0))).getD
                i []).getD j 0
            = if th ≤ (softmaxRow b.exp (out.getD i [])).getD j 0 then 1 else 0 := by
    intro out
    constructor
    · simp
    · intro i hi
      have hi2 : i < (out.map (softmaxRow b.exp)).length := by simpa using hi
      have hmap : ((out.map (softmaxRow b.exp)).map
            (fun row => row.map (fun p => if th ≤ p then (1 : ℤ) else 0))).getD i []
          = (softmaxRow b.exp (out.getD i [])).map
              (fun p => if th ≤ p then (1 : ℤ) else 0) := by
        rw [getD_map _ _ i hi2 [] [], getD_map _ _ i hi [] []]
      constructor
      · rw [hmap]
        simp [softmaxRow]
      · intro j hj
        have hj2 : j < (softmaxRow b.exp (out.getD i [])).length := by
          simpa [softmaxRow] using hj
        rw [hmap, getD_map _ _ j hj2 0 0]
  exact key (b.basePredict (astype b.castDtype x) bs tm kw)

/-- Witness for C2: the threshold comparison evaluated on the concrete test
backend at sample 0 and class 1. -/
theorem predict_classifier_thresholds_softmax_witness :
    ((_predict_classifier testBackend (1 / 2) [3] 1 false ()).getD 0 []).getD 1 0 =
      if (1 : ℚ) / 2 ≤ (softmaxRow testBackend.exp
          ((testBackend.basePredict (astype testBackend.castDtype [3]) 1 false
            ()).getD 0 [])).getD 1 0
      then 1 else 0 :=
  ((predict_classifier_thresholds_softmax testBackend (1 / 2) [3] 1 false ()).2 0
    (by decide)).2 1 (by decide)

/-- C3: for every input array x, both _predict_classifier and _fit_classifier
cast x to the toolkit numpy dtype (ART_NUMPY_DTYPE) before delegating to the
backend classifier predict and fit respectively, and delegate the remaining
arguments (batch_size, nb_epochs, training_mode, kwargs, and for fit also y)
unchanged. -/
theorem classifier_methods_cast_dtype (b : Backend α β γ κ) (th : ℚ)
    (x : List α) (y : List β) (bs ne : Nat) (tm : Bool) (kw : κ) :
    _fit_classifier b x y bs ne kw = ⟨astype b.castDtype x, y, bs, ne, kw⟩ ∧
    _predict_classifier b th x bs tm kw =
      ((b.basePredict (astype b.castDtype x) bs tm kw).map (softmaxRow b.exp)).map
        (fun row => row.map (fun p => if th ≤ p then (1 : ℤ) else 0)) :=
  ⟨rfl, rfl⟩

/-- C4: for every call to fit with a configured optimizer, each epoch first
shuffles the example indices, and then for each batch performs, in this order:
copy the batch, apply the ablator forward transform to the batch, zero the
optimizer gradients, run the model forward pass on the ablated batch, compute
the loss, run the backward pass, and take one optimizer step. -/
theorem fit_trace_shape (b : Backend α β γ κ) (o : O) (x : List α) (y : List β)
    (kw : κ) (bs ne : Nat) (tm : Bool) :
    let xp := (b.applyPreprocessing x (b.checkAndTransformLabels y)).1
    let yp := b.reduceLabels (b.applyPreprocessing x (b.checkAndTransformLabels y)).2
    let n := xp.length
    (fit b (some o) x y kw bs ne tm).events =
      TrainEvent.labelTransform :: TrainEvent.preprocess :: TrainEvent.reduceLabels ::
        (List.range ne).flatMap (fun e =>
          TrainEvent.shuffle (indSeq b n e) ::
            (List.range (numBatch n bs)).flatMap (fun m =>
              let idxs := batchSlice (indSeq b n e) bs m
              let i_batch := idxs.map (fun i => xp.getD i b.dfltIn)
              let o_batch := idxs.map (fun i => yp.getD i b.dfltLbl)
              let a_batch := b.ablatorForward i_batch
              let outs := b.model a_batch
              [TrainEvent.copyBatch i_batch, TrainEvent.ablate a_batch,
               TrainEvent.zeroGrad, TrainEvent.forward outs,
               TrainEvent.computeLoss (outs.getLastD b.dfltOut) o_batch,
               TrainEvent.backward, TrainEvent.step])) := by
  intro xp yp n
  rw [fit_some_events]
  rfl

/-- C5: the constructor passes the scalar hyperparameters ablation_type,
ablation_size and threshold through unchanged to the superclass initializer,
along with every other constructor argument (model, loss, input_shape,
nb_classes, optimizer, channels_first, clip_values, preprocessing_defences,
postprocessing_defences, preprocessing, device_type) unmodified. -/
theorem init_forwards_args (model : M) (loss : L) (input_shape : List Nat)
    (nb_classes : Nat) (ablation_type : String) (ablation_size : Nat)
    (threshold : ℚ) (optimizer : Option O) (channels_first : Bool)
    (clip_values : Option CV) (preprocessing_defences : Option PD)
    (postprocessing_defences : Option PO) (preprocessing : ℚ × ℚ)
    (device_type : String) :
    let a : SuperArgs M L O CV PD PO := init model loss input_shape nb_classes ablation_type ablation_size
      threshold optimizer channels_first clip_values preprocessing_defences
      postprocessing_defences preprocessing device_type
    a.model = model ∧ a.loss = loss ∧ a.input_shape = input_shape ∧
    a.nb_classes = nb_classes ∧ a.optimizer = optimizer ∧
    a.channels_first = channels_first ∧ a.clip_values = clip_values ∧
    a.preprocessing_defences = preprocessing_defences ∧
    a.postprocessing_defences = postprocessing_defences ∧
    a.preprocessing = preprocessing ∧ a.device_type = device_type ∧
    a.ablation_type = ablation_type ∧ a.ablation_size = ablation_size ∧
    a.threshold = threshold := by
  intro a
  exact ⟨rfl, rfl, rfl, rfl, rfl, rfl, rfl, rfl, rfl, rfl, rfl, rfl, rfl, rfl⟩

/-- C6: the class exposes fit (x, y, batch_size, nb_epochs) and
predict (x, batch_size) with defaults batch_size = 128 and nb_epochs = 10
(and training_mode = True for fit), and for every input x and batch_size,
predict delegates to the DeRandomizedSmoothingMixin predict with
training_mode set to False and the given x and batch_size unchanged. -/
theorem fit_predict_surface (b : Backend α β γ κ) (opt : Option O) (x : List α)
    (y : List β) (kw : κ) :
    predict b x kw = b.mixinPredict x 128 false kw ∧
    (∀ bs : Nat, predict b x kw bs = b.mixinPredict x bs false kw) ∧
    fit b opt x y kw = fit b opt x y kw 128 10 true :=
  ⟨rfl, fun _ => rfl, rfl⟩

/-- C7: the missing-optimizer error is the only failure condition this module
itself defines and raises: a call to fit produces an error precisely when the
configured optimizer is None; predict, _predict_classifier and _fit_classifier
are total delegations with no error branch of their own. -/
theorem optimizer_check_only_failure (b : Backend α β γ κ) (opt : Option O)
    (x : List α) (y : List β) (kw : κ) (bs ne : Nat) (tm : Bool) :
    (fit b opt x y kw bs ne tm).error ≠ none ↔ opt = none := by
  cases opt with
  | none => simp [fit]
  | some o => simp [fit]

/-- C8: when fit is called without a configured optimizer, the model has
already been switched to the requested training mode before the error is
raised: the outcome of the failing call records trainMode = training_mode
together with the raised error, so fit is not atomic on this error path. -/
theorem mode_set_before_optimizer_check (b : Backend α β γ κ) (x : List α)
    (y : List β) (kw : κ) (bs ne : Nat) (tm : Bool) :
    (fit b (none : Option O) x y kw bs ne tm).trainMode = tm ∧
    (fit b (none : Option O) x y kw bs ne tm).error = some optimizerErrorMsg :=
  ⟨rfl, rfl⟩

/-- C9: in every training iteration of fit, the loss is computed on only the
last element of the model output (model_outputs[-1]) against the batch labels:
every computeLoss event in the trace of a successful fit takes as loss input
the last element of the outputs of a forward event of the same trace. -/
theorem loss_on_last_output (b : Backend α β γ κ) (o : O) (x : List α)
    (y : List β) (kw : κ) (bs ne : Nat) (tm : Bool) (l : γ) (lbls : List β) :
    TrainEvent.computeLoss l lbls ∈ (fit b (some o) x y kw bs ne tm).events →
    ∃ outs, TrainEvent.forward outs ∈ (fit b (some o) x y kw bs ne tm).events ∧
      l = outs.getLastD b.dfltOut := by
  intro h
  rw [fit_some_events] at h
  simp only [List.mem_cons, List.mem_flatMap, List.mem_range] at h
  rcases h with h | h | h | ⟨e, he, hmem⟩
  · exact TrainEvent.noConfusion h
  · exact TrainEvent.noConfusion h
  · exact TrainEvent.noConfusion h
  · obtain ⟨outs, ho, hl⟩ := computeLoss_in_epochTrace _ _ _ _ _ _ _ _ hmem
    refine ⟨outs, ?_, hl⟩
    rw [fit_some_events]
    simp only [List.mem_cons, List.mem_flatMap, List.mem_range]
    exact Or.inr (Or.inr (Or.inr ⟨e, he, ho⟩))

/-- Witness for C9: on the concrete test backend, the computeLoss event of the
single batch of the single epoch receives the last element of the forward
outputs. -/
theorem loss_on_last_output_witness :
    ∃ outs, TrainEvent.forward outs ∈
        (fit testBackend (some ()) [5, 7] [1, 0] () 2 1 true).events ∧
      (5 : ℚ) = outs.getLastD testBackend.dfltOut :=
  loss_on_last_output testBackend () [5, 7] [1, 0] () 2 1 true 5 [0, 1] (by decide)

/-- C10: in every epoch of fit over n preprocessed examples with batch size
bs > 0, exactly ceil (n / bs) batches are processed (the epoch trace contains
num_batch optimizer steps and num_batch equals the ceiling of n / bs), the
shuffled index array is a permutation of 0 .. n - 1, the batch slices
concatenate back to the shuffled index array, every example index is used in
exactly one batch of that epoch, and every batch except possibly the last has
exactly bs examples. -/
theorem epoch_batching_invariants (b : Backend α β γ κ) (o : O) (x : List α)
    (y : List β) (kw : κ) (bs ne : Nat) (tm : Bool) (hbs : 0 < bs)
    (hs : ∀ (e : Nat) (l : List Nat), (b.shuffleFn e l).Perm l) :
    let xp := (b.applyPreprocessing x (b.checkAndTransformLabels y)).1
    let yp := b.reduceLabels (b.applyPreprocessing x (b.checkAndTransformLabels y)).2
    let n := xp.length
    let nB := numBatch n bs
    nB = ⌈(n : ℚ) / (bs : ℚ)⌉₊ ∧
    ∀ e : Nat, e < ne →
      TrainEvent.shuffle (indSeq b n e) ∈ (fit b (some o) x y kw bs ne tm).events ∧
      (indSeq b n e).Perm (List.range n) ∧
      (epochTrace b xp yp (indSeq b n e) bs nB).countP isStep = nB ∧
      (epochBatches (indSeq b n e) bs nB).length = nB ∧
      (epochBatches (indSeq b n e) bs nB).flatten = indSeq b n e ∧
      (∀ i : Nat, i < n →
        (epochBatches (indSeq b n e) bs nB).countP (fun s => decide (i ∈ s)) = 1) ∧
      (∀ m : Nat, m + 1 < nB → (batchSlice (indSeq b n e) bs m).length = bs) := by
  intro xp yp n nB
  refine ⟨numBatch_eq_ceil n bs hbs, fun e he => ?_⟩
  have hperm : (indSeq b n e).Perm (List.range n) := indSeq_perm b hs n e
  have hlen : (indSeq b n e).length = n := by
    rw [hperm.length_eq, List.length_range]
  have hflat : (epochBatches (indSeq b n e) bs nB).flatten = indSeq b n e := by
    apply flatten_epochBatches bs nB
    rw [hlen]
    exact le_numBatch_mul n bs hbs
  refine ⟨?_, hperm, countP_isStep_epochTrace b xp yp (indSeq b n e) bs nB, ?_,
    hflat, ?_, ?_⟩
  · rw [fit_some_events]
    simp only [List.mem_cons, List.mem_flatMap, List.mem_range]
    refine Or.inr (Or.inr (Or.inr ⟨e, he, ?_⟩))
    simp only [epochTrace]
    exact List.mem_cons_self _ _
  · simp [epochBatches]
  · intro i hi
    apply countP_mem_of_count_flatten
    rw [hflat, hperm.count_eq i]
    exact List.count_eq_one_of_mem (List.nodup_range n) (List.mem_range.mpr hi)
  · intro m hm
    have hmul : (m + 1) * bs ≤ n := mul_le_of_lt_numBatch n bs m hbs hm
    have hble : bs + m * bs ≤ n := by
      rw [Nat.add_comm]
      rw [Nat.succ_mul] at hmul
      exact hmul
    rw [batchSlice, List.length_take, List.length_drop, hlen]
    exact Nat.min_eq_left (Nat.le_sub_of_add_le hble)

/-- Witness for C10: on the concrete test backend with three examples and
batch size two, epoch zero emits its shuffle event into the fit trace and its
shuffled index array is a permutation of range 3. -/
theorem epoch_batching_invariants_witness :
    TrainEvent.shuffle (indSeq testBackend 3 0) ∈
        (fit testBackend (some ()) [1, 2, 3] [0, 0, 0] () 2 1 true).events ∧
      (indSeq testBackend 3 0).Perm (List.range 3) := by
  have h := epoch_batching_invariants testBackend () [1, 2, 3] [0, 0, 0] () 2 1
    true (by decide) (fun _ l => l.reverse_perm)
  exact ⟨(h.2 0 (by decide)).1, (h.2 0 (by decide)).2.1⟩

end DRS
